import Mathlib

/-!
Verification development for the AHMADS-TTS audio pipeline.

The development embeds, over exact rational arithmetic, the audio helper
functions of src/utils/audioHelpers.ts (PCM decoding and WAV encoding),
the playback state machine of src/components/AudioPlayer.tsx, and the
generation workflow of the application root component.  Machine numbers
are modelled as Nat / Int with explicit wrapping where the JavaScript
semantics wraps; every floating-point operation performed by the code
(clamping, scaling by 32767 / 32768, truncation, division by 32768) is
exact on the values that occur, so rational arithmetic is a faithful
model.
-/

/-- Truncation of a rational toward zero.  This is the rounding performed by
the JavaScript ToInt32 coercion (the expression x | 0) on an in-range value. -/
def truncQ (q : ℚ) : Int := if 0 ≤ q then ⌊q⌋ else -⌊-q⌋

/-- JavaScript ToInt32 in full: truncate toward zero, then wrap into the
signed 32-bit range.  This is the exact meaning of x | 0. -/
def toInt32 (x : ℚ) : Int :=
  let n := truncQ x % 4294967296
  if n < 2147483648 then n else n - 4294967296

/-- Signed 16-bit value represented by a little-endian byte pair, as read by
an Int16Array element access. -/
def int16OfBytes (lo hi : Nat) : Int :=
  let u := lo % 256 + 256 * (hi % 256)
  if u < 32768 then (u : Int) else (u : Int) - 65536

/-- Little-endian byte pair written by DataView.setInt16 (the value is taken
modulo 2^16). -/
def i16le (v : Int) : List Nat :=
  let u := (v % 65536).toNat
  [u % 256, u / 256]

/-- Little-endian byte pair written by DataView.setUint16 (the value is taken
modulo 2^16; the first byte already discards the higher part). -/
def u16le (v : Nat) : List Nat := [v % 256, v / 256 % 256]

/-- Little-endian byte quadruple written by DataView.setUint32 (the value is
taken modulo 2^32; the fourth byte already discards the higher part). -/
def u32le (v : Nat) : List Nat := [v % 256, v / 256 % 256, v / 65536 % 256, v / 16777216 % 256]

/-- Web Audio AudioBuffer as used by this code base: channel count, sample
rate in Hz, frame count (the length attribute) and per-channel sample data.
Samples are Float32 values in the browser; every value produced or consumed
by this code is exactly representable, so they are modelled as rationals. -/
structure AudioBuffer where
  numChannels : Nat
  sampleRate : Nat
  length : Nat
  channels : List (List ℚ)
deriving DecidableEq

/-- Well-formedness of an AudioBuffer: one data array per channel, each of
exactly length samples.  Web Audio guarantees this for every buffer it
creates. -/
def AudioBuffer.WF (b : AudioBuffer) : Prop :=
  b.channels.length = b.numChannels ∧ ∀ ch ∈ b.channels, ch.length = b.length

/-- Sample of channel c at frame position i, read the way the code reads
channels[i][pos]; out-of-range reads default to 0 (they never occur on
well-formed buffers). -/
def AudioBuffer.sampleAt (b : AudioBuffer) (c i : Nat) : ℚ :=
  (b.channels.getD c []).getD i 0

/-- Failure of a decode attempt.  The only failure the embedded code can
produce is the NotSupportedError that BaseAudioContext.createBuffer throws
when asked for a zero-frame or zero-channel buffer (Web Audio spec:
createBuffer throws NotSupportedError if any argument is negative, zero, or
outside its nominal range). -/
inductive DecodeError
  | notSupported
deriving DecidableEq

/-- View of a byte sequence as little-endian signed 16-bit integers, as
built by new Int16Array(data.buffer, data.byteOffset, data.byteLength / 2):
the length argument goes through ToIndex, which truncates, so a trailing odd
byte is silently dropped. -/
def toInt16List : List Nat → List Int
  | lo :: hi :: rest => int16OfBytes lo hi :: toInt16List rest
  | _ => []

/-- Embedding of decodeAudioData (src/utils/audioHelpers.ts lines 18-41).
The code views the bytes as Int16 (dropping a trailing odd byte, see
toInt16List), creates a buffer of dataInt16.length / numChannels frames
(the quotient passes through the WebIDL unsigned long conversion, which
truncates), and then, for every channel, runs
channelData[i] = dataInt16[i] / 32768.0 over the whole Int16 view: no
de-interleaving is performed, and the writes with i beyond the channel
length are ignored (out-of-range typed-array writes are no-ops), so every
channel receives the first frames entries of the interleaved stream.
createBuffer throws NotSupportedError when the frame count or the channel
count is zero (with numChannels = 0 the JavaScript quotient is Infinity,
which ToUint32 sends to 0, so the zero-frame throw covers that case too). -/
def decodeAudioData (data : List Nat) (sampleRate : Nat) (numChannels : Nat) :
    Except DecodeError AudioBuffer :=
  let dataInt16 := toInt16List data
  let frames := dataInt16.length / numChannels
  if numChannels = 0 ∨ frames = 0 then .error .notSupported
  else .ok { numChannels := numChannels, sampleRate := sampleRate, length := frames,
             channels := List.replicate numChannels
               ((dataInt16.take frames).map (fun v => (v : ℚ) / 32768)) }

/-- Embedding of the per-sample quantization expression of audioBufferToWav
(src/utils/audioHelpers.ts lines 79-89):

  sample = Math.max(-1, Math.min(1, channels[i][pos]));
  sample = (0.5 + sample < 0 ? sample * 32768 : sample * 32767) | 0;

In JavaScript + binds tighter than <, so the test reads (0.5 + sample) < 0,
i.e. sample < -0.5.  Both products are exact in double precision (a Float32
significand times a 15-bit integer), so rational arithmetic models them
exactly. -/
def quantizeSample (x : ℚ) : Int :=
  let sample := max (-1) (min 1 x)
  toInt32 (if 1 / 2 + sample < 0 then sample * 32768 else sample * 32767)

/-- Embedding of the 44-byte WAV header written by audioBufferToWav
(src/utils/audioHelpers.ts), field for field in the order the code writes
them. -/
def wavHeader (b : AudioBuffer) : List Nat :=
  let numOfChan := b.numChannels
  let totalLen := b.length * numOfChan * 2 + 44
  u32le 0x46464952 ++ u32le (totalLen - 8) ++ u32le 0x45564157 ++
  u32le 0x20746d66 ++ u32le 16 ++ u16le 1 ++ u16le numOfChan ++
  u32le b.sampleRate ++ u32le (b.sampleRate * 2 * numOfChan) ++
  u16le (numOfChan * 2) ++ u16le 16 ++
  u32le 0x61746164 ++ u32le (totalLen - 44)

/-- Embedding of the data-chunk loop of audioBufferToWav: frames in order,
channels interleaved within each frame, each sample quantized and written as
a little-endian Int16. -/
def wavData (b : AudioBuffer) : List Nat :=
  (List.range b.length).flatMap (fun pos =>
    (List.range b.numChannels).flatMap (fun c =>
      i16le (quantizeSample (b.sampleAt c pos))))

/-- Embedding of audioBufferToWav (src/utils/audioHelpers.ts lines 46-101):
the byte content of the returned Blob, header followed by interleaved
quantized data. -/
def audioBufferToWav (b : AudioBuffer) : List Nat := wavHeader b ++ wavData b

/-- Quantization rule exactly as claim C1 states it: clamp to [-1, 1]; a
negative clamped value is scaled by 32768, a non-negative one by 32767,
truncating toward zero. -/
def specQuantize (x : ℚ) : Int :=
  let s := max (-1) (min 1 x)
  if s < 0 then truncQ (s * 32768) else truncQ (s * 32767)

/-- Amended quantization rule: identical to specQuantize except that the
branch point is -1/2 (the threshold the code actually implements through
(0.5 + sample) < 0). -/
def quantizeRuleAmended (x : ℚ) : Int :=
  let s := max (-1) (min 1 x)
  if s < -(1 / 2) then truncQ (s * 32768) else truncQ (s * 32767)

/-- Modelled from the spec: the repository contains no WAV parser under src
(history replay uses the browser-native decodeAudioData), so the decode side
of the round-trip property is taken from the spec text (sections 4.3 and 8):
read channel count and sample rate from the canonical 44-byte header, view
the data chunk as little-endian Int16, divide each integer by 32768.0, and
de-interleave channel-minor. -/
def wavDecodeSpec (bytes : List Nat) : Option AudioBuffer :=
  if bytes.length < 44 then none else
  let numCh := bytes.getD 22 0 % 256 + 256 * (bytes.getD 23 0 % 256)
  let rate := bytes.getD 24 0 % 256 + 256 * (bytes.getD 25 0 % 256) +
    65536 * (bytes.getD 26 0 % 256) + 16777216 * (bytes.getD 27 0 % 256)
  let ints := toInt16List (bytes.drop 44)
  if numCh = 0 then none else
  let frames := ints.length / numCh
  some { numChannels := numCh, sampleRate := rate, length := frames,
         channels := (List.range numCh).map (fun c =>
           (List.range frames).map (fun i => (ints.getD (i * numCh + c) 0 : ℚ) / 32768)) }

/-- Duration of a buffer in seconds (the Web Audio duration attribute:
length / sampleRate). -/
def AudioBuffer.duration (b : AudioBuffer) : ℚ := (b.length : ℚ) / b.sampleRate

/-- State of the playback controller of src/components/AudioPlayer.tsx with
a loaded buffer: the React state flags isPlaying / currentTime / duration,
the refs pausedTimeRef (the buffer-time cursor) and startTimeRef (the
wall-clock anchor), the wall clock (audioContext.currentTime, a rational
number of seconds), the speed prop currently in effect, and whether a
source node has ever been created (stopAudio never clears sourceNodeRef, it
only stops the node, so the flag stays true once play has run). -/
structure PlayerState where
  isPlaying : Bool
  currentTime : ℚ
  pausedTime : ℚ
  startTime : ℚ
  now : ℚ
  speed : ℚ
  duration : ℚ
  sourceExists : Bool
deriving DecidableEq

/-- Embedding of playAudio (AudioPlayer.tsx lines 102-159): creates and
starts a source at offset pausedTimeRef.current (the cursor is not
changed), records the wall clock as the anchor, and raises isPlaying. -/
def playAudio (s : PlayerState) : PlayerState :=
  { s with startTime := s.now, isPlaying := true, sourceExists := true }

/-- Embedding of pauseAudio (AudioPlayer.tsx lines 162-178): guarded by the
existence of a source node; adds wall-clock elapsed times the speed in
effect to the cursor, then applies the defensive clamp that resets the
cursor to 0 when it exceeds the buffer duration, and lowers isPlaying. -/
def pauseAudio (s : PlayerState) : PlayerState :=
  if s.sourceExists then
    let wallTimeElapsed := s.now - s.startTime
    let cursor := s.pausedTime + wallTimeElapsed * s.speed
    { s with pausedTime := if cursor > s.duration then 0 else cursor,
             isPlaying := false }
  else s

/-- Embedding of stopAudio (AudioPlayer.tsx lines 180-193): stops and
disconnects any source (a second stop on an already stopped node throws
InvalidStateError, which the code catches and ignores, so the operation is
total), lowers isPlaying, and resets displayed time and cursor to 0. -/
def stopAudio (s : PlayerState) : PlayerState :=
  { s with isPlaying := false, currentTime := 0, pausedTime := 0 }

/-- Embedding of one tick of the progress loop (AudioPlayer.tsx lines
211-235): while playing, computes bufferPlayed = cursor + elapsed times
speed; below the duration it only refreshes the displayed time (clamped to
the duration); at or past the duration it lowers isPlaying and resets
displayed time and cursor to 0 (natural completion). -/
def updateProgress (s : PlayerState) : PlayerState :=
  if s.isPlaying then
    let bufferPlayed := s.pausedTime + (s.now - s.startTime) * s.speed
    if bufferPlayed < s.duration then { s with currentTime := min bufferPlayed s.duration }
    else { s with isPlaying := false, currentTime := 0, pausedTime := 0 }
  else s

/-- Advance of the wall clock by t seconds between operations. -/
def advanceClock (t : ℚ) (s : PlayerState) : PlayerState := { s with now := s.now + t }

/-- Change of the speed prop (the live-update effect writes it onto the
active source; the stored rate used by pause and progress is this prop). -/
def setSpeed (r : ℚ) (s : PlayerState) : PlayerState := { s with speed := r }

/-- Initial controller state for a freshly loaded buffer of duration d: the
buffer-change effect sets duration := d, currentTime := 0 and the cursor to
0; no source exists yet and the wall clock starts at 0. -/
def initPlayer (d : ℚ) : PlayerState :=
  { isPlaying := false, currentTime := 0, pausedTime := 0, startTime := 0,
    now := 0, speed := 1, duration := d, sourceExists := false }

/-- Operations a user or the host loop can drive the controller with. -/
inductive PlayerOp
  | play
  | pause
  | stop
  | tick
  | advance (t : ℚ)
  | rate (r : ℚ)
deriving DecidableEq

/-- One controller step. -/
def stepOp (s : PlayerState) (op : PlayerOp) : PlayerState :=
  match op with
  | .play => playAudio s
  | .pause => pauseAudio s
  | .stop => stopAudio s
  | .tick => updateProgress s
  | .advance t => advanceClock t s
  | .rate r => setSpeed r s

/-- Validity of an operation per the documented caller contract: wall-clock
advances are non-negative and rates stay within [0.5, 2.0]. -/
def validOp : PlayerOp → Prop
  | .advance t => 0 ≤ t
  | .rate r => 1 / 2 ≤ r ∧ r ≤ 2
  | _ => True

/-- Controller state reached from the initial state by a sequence of
operations. -/
def runOps (d : ℚ) (ops : List PlayerOp) : PlayerState :=
  ops.foldl stepOp (initPlayer d)

/-- History record of src/types.ts: metadata plus the WAV bytes of the
saved Blob. -/
structure HistoryItem where
  id : String
  text : String
  voice : String
  timestamp : Nat
  audioBlob : List Nat
  duration : ℚ
  speed : ℚ
  pitch : ℚ
deriving DecidableEq

/-- Application state of the root component (src/unnamed/part_000): the
fields handleGenerate reads or writes. -/
structure AppState where
  text : String
  voice : String
  speed : ℚ
  pitch : ℚ
  isLoading : Bool
  error : Option String
  currentAudioBuffer : Option AudioBuffer
  history : List HistoryItem
deriving DecidableEq

/-- Embedding of handleGenerate (src/unnamed/part_000 lines 20-61).  The
two effectful steps outside this repository are passed in as oracles: the
outcome of the network call generateSpeech, and atob (the base64 payload
decoded to bytes, or the InvalidCharacterError atob throws on malformed
input; the charCodeAt loop of decodeBase64 is infallible).  uuid and nowMs
stand for crypto.randomUUID() and Date.now().  The code returns early on
blank text (the guard !text.trim() is true exactly when every character of
the text is whitespace, which is how the guard is embedded here), otherwise
clears error and current buffer, runs the try block, and on any thrown
error only records the message; the finally clause lowers isLoading on
every path. -/
def handleGenerate (synthResult : Except String String)
    (atobBytes : String → Except String (List Nat))
    (uuid : String) (nowMs : Nat) (st : AppState) : AppState :=
  if st.text.data.all Char.isWhitespace then st else
  let st1 := { st with isLoading := true, error := none,
                       currentAudioBuffer := none }
  match synthResult with
  | .error e => { st1 with error := some e, isLoading := false }
  | .ok base64Audio =>
    match atobBytes base64Audio with
    | .error e => { st1 with error := some e, isLoading := false }
    | .ok audioBytes =>
      match decodeAudioData audioBytes 24000 1 with
      | .error _ => { st1 with error := some "NotSupportedError", isLoading := false }
      | .ok buffer =>
        let st2 := { st1 with currentAudioBuffer := some buffer }
        let newItem : HistoryItem :=
          { id := uuid,
            text := st.text.take 60 ++ (if 60 < st.text.length then "..." else ""),
            voice := st.voice, timestamp := nowMs,
            audioBlob := audioBufferToWav buffer,
            duration := buffer.duration, speed := st.speed, pitch := st.pitch }
        { st2 with history := newItem :: st2.history, isLoading := false }

/-- Failure of a generation attempt at one of the three fallible steps the
try block runs before any state beyond the initial reset is written: the
synthesis call, the base64 decode, or the PCM decode. -/
def generationFails (synthResult : Except String String)
    (atobBytes : String → Except String (List Nat)) : Prop :=
  match synthResult with
  | .error _ => True
  | .ok base64Audio =>
    match atobBytes base64Audio with
    | .error _ => True
    | .ok audioBytes =>
      match decodeAudioData audioBytes 24000 1 with
      | .error _ => True
      | .ok _ => False

/-! Helper lemmas about truncation and quantization. -/

lemma sub_one_lt_truncQ (q : ℚ) : q - 1 < (truncQ q : ℚ) := by
  unfold truncQ
  split
  · exact_mod_cast Int.sub_one_lt_floor q
  · push_cast
    linarith [Int.floor_le (-q)]

lemma truncQ_lt_add_one (q : ℚ) : (truncQ q : ℚ) < q + 1 := by
  unfold truncQ
  split
  · linarith [Int.floor_le q]
  · push_cast
    linarith [Int.sub_one_lt_floor (-q)]

lemma truncQ_nonneg_bounds (q : ℚ) (h : 0 ≤ q) : 0 ≤ truncQ q ∧ (truncQ q : ℚ) ≤ q := by
  unfold truncQ
  rw [if_pos h]
  exact ⟨Int.floor_nonneg.mpr h, Int.floor_le q⟩

lemma truncQ_nonpos_bounds (q : ℚ) (h : q ≤ 0) : truncQ q ≤ 0 ∧ q ≤ (truncQ q : ℚ) := by
  unfold truncQ
  split
  · have hq : q = 0 := le_antisymm h (by assumption)
    subst hq
    simp
  · constructor
    · simp only [neg_nonpos]
      exact Int.floor_nonneg.mpr (by linarith [not_le.mp (by assumption)])
    · push_cast
      linarith [Int.floor_le (-q)]

lemma clampBounds (x : ℚ) : -1 ≤ max (-1) (min 1 x) ∧ max (-1) (min 1 x) ≤ 1 :=
  ⟨le_max_left _ _, max_le (by norm_num) (min_le_left _ _)⟩

lemma quantizeRuleAmended_range (x : ℚ) :
    -32768 ≤ quantizeRuleAmended x ∧ quantizeRuleAmended x < 32768 := by
  obtain ⟨h1, h2⟩ := clampBounds x
  simp only [quantizeRuleAmended]
  set s := max (-1) (min 1 x) with hs
  split
  · rename_i hneg
    have hb := truncQ_nonpos_bounds (s * 32768) (by nlinarith)
    constructor
    · have : (-32768 : ℚ) ≤ (truncQ (s * 32768) : ℚ) := by nlinarith [hb.2]
      exact_mod_cast this
    · have : (truncQ (s * 32768) : ℚ) ≤ 0 := by exact_mod_cast hb.1
      have : (truncQ (s * 32768) : ℚ) < 32768 := by linarith
      exact_mod_cast this
  · rename_i hpos
    push_neg at hpos
    constructor
    · have := sub_one_lt_truncQ (s * 32767)
      have : (-32768 : ℚ) ≤ (truncQ (s * 32767) : ℚ) := by nlinarith
      exact_mod_cast this
    · have := truncQ_lt_add_one (s * 32767)
      have : (truncQ (s * 32767) : ℚ) < 32768 := by nlinarith
      exact_mod_cast this

lemma toInt32_eq_truncQ (x : ℚ) (h1 : -2147483648 ≤ truncQ x) (h2 : truncQ x < 2147483648) :
    toInt32 x = truncQ x := by
  unfold toInt32
  rcases le_or_lt 0 (truncQ x) with h | h
  · rw [Int.emod_eq_of_lt h (by omega)]
    rw [if_pos h2]
  · have he : truncQ x % 4294967296 = truncQ x + 4294967296 := by omega
    rw [he, if_neg (by omega)]
    omega

lemma quantizeSample_eq_amended (x : ℚ) : quantizeSample x = quantizeRuleAmended x := by
  have hr := quantizeRuleAmended_range x
  simp only [quantizeSample]
  have hcond : (1 / 2 + max (-1) (min 1 x) < 0) ↔ (max (-1) (min 1 x) < -(1 / 2)) := by
    constructor <;> intro h <;> linarith
  by_cases h : max (-1) (min 1 x) < -(1 / 2)
  · rw [if_pos (hcond.mpr h)]
    have hq : quantizeRuleAmended x = truncQ (max (-1) (min 1 x) * 32768) := by
      simp only [quantizeRuleAmended]
      rw [if_pos h]
    rw [hq] at hr ⊢
    exact toInt32_eq_truncQ _ (by omega) (by omega)
  · rw [if_neg (fun hc => h (hcond.mp hc))]
    have hq : quantizeRuleAmended x = truncQ (max (-1) (min 1 x) * 32767) := by
      simp only [quantizeRuleAmended]
      rw [if_neg h]
    rw [hq] at hr ⊢
    exact toInt32_eq_truncQ _ (by omega) (by omega)

lemma quantize_tolerance (x : ℚ) (h1 : -1 ≤ x) (h2 : x ≤ 1) :
    |(quantizeRuleAmended x : ℚ) / 32768 - x| ≤ 2 / 32768 := by
  have hclamp : max (-1) (min 1 x) = x := by
    rw [min_eq_right h2, max_eq_right h1]
  simp only [quantizeRuleAmended, hclamp]
  rw [abs_le]
  split
  · rename_i h
    have hb := truncQ_nonpos_bounds (x * 32768) (by linarith)
    have hub := truncQ_lt_add_one (x * 32768)
    constructor <;> linarith [hb.2]
  · rename_i h
    push_neg at h
    have hlb := sub_one_lt_truncQ (x * 32767)
    have hub := truncQ_lt_add_one (x * 32767)
    constructor <;> linarith

lemma toInt16List_length : ∀ l : List Nat, (toInt16List l).length = l.length / 2
  | [] => by simp [toInt16List]
  | [_] => by simp [toInt16List]
  | _ :: _ :: rest => by
    simp only [toInt16List, List.length_cons, toInt16List_length rest]
    omega

/-- C1, counterexample: on the sample -1/4 the quantization rule of the claim
(negative values scale by 32768) yields -8192, but the encoder writes the
bytes of -8191 into the data chunk, because the implemented branch condition
(0.5 + sample) < 0 sends -1/4 to the 32767 branch. -/
theorem c1_counterexample :
    specQuantize (-(1 / 4)) = -8192 ∧
    wavData { numChannels := 1, sampleRate := 24000, length := 1,
              channels := [[-(1 / 4)]] } = i16le (-8191) ∧
    i16le (-8191) ≠ i16le (-8192) := by
  refine ⟨?_, ?_, by decide⟩
  · norm_num [specQuantize, truncQ]
  · norm_num [wavData, AudioBuffer.sampleAt, quantizeSample, toInt32, truncQ, i16le,
      List.range_succ]

/-- C1 (amended): for every input sample the WAV encoder quantizes by
clamping to [-1, 1], then scaling by 32768 and truncating toward zero when
the clamped value is below -1/2, and scaling by 32767 and truncating toward
zero otherwise; the resulting 16-bit integer is what is written (little
endian) into the data chunk at the sample's interleaved position. -/
theorem c1_quantization_amended :
    (∀ x : ℚ, quantizeSample x = quantizeRuleAmended x) ∧
    ∀ b : AudioBuffer, wavData b =
      (List.range b.length).flatMap (fun pos =>
        (List.range b.numChannels).flatMap (fun c =>
          i16le (quantizeRuleAmended (b.sampleAt c pos)))) := by
  refine ⟨quantizeSample_eq_amended, fun b => ?_⟩
  simp only [wavData, quantizeSample_eq_amended]

/-- C3, counterexample: on the 2-channel input [1, 0, 2, 0] (the 16-bit
samples 1 and 2) the decoder produces the same data for both channels (each
receives interleaved position 0), whereas the claimed de-interleaving would
put sample 2/32768 (interleaved position 1) into channel 1. -/
theorem c3_counterexample :
    decodeAudioData [1, 0, 2, 0] 24000 2 =
      .ok { numChannels := 2, sampleRate := 24000, length := 1,
            channels := [[1 / 32768], [1 / 32768]] } ∧
    ([[1 / 32768], [1 / 32768]] : List (List ℚ)) ≠ [[1 / 32768], [2 / 32768]] := by
  constructor
  · norm_num [decodeAudioData, toInt16List, int16OfBytes, List.replicate]
  · norm_num

/-- C3 (amended): for every byte buffer whose length is a positive multiple
of 2 x channelCount, the PCM decoder interprets the bytes as 16-bit
little-endian signed integers and divides each by 32768.0, but it does not
de-interleave: every channel of the resulting buffer holds the first
frameCount values of the interleaved sequence (so all channels are copies of
channel 0; for mono input this agrees with the claim). -/
theorem c3_decode_amended (data : List Nat) (rate cc fr : Nat)
    (hlen : data.length = 2 * cc * fr) (hcc : cc ≠ 0) (hfr : fr ≠ 0) :
    decodeAudioData data rate cc =
      .ok { numChannels := cc, sampleRate := rate, length := fr,
            channels := List.replicate cc
              (((toInt16List data).take fr).map (fun v => (v : ℚ) / 32768)) } := by
  have h16 : (toInt16List data).length = cc * fr := by
    rw [toInt16List_length, hlen, mul_assoc]
    exact Nat.mul_div_cancel_left _ (by norm_num)
  simp only [decodeAudioData, h16, Nat.mul_div_cancel_left _ (Nat.pos_of_ne_zero hcc)]
  rw [if_neg (by push_neg; exact ⟨hcc, hfr⟩)]

/-- Witness for C3: the amended statement evaluated on the concrete
2-channel input [1, 0, 2, 0]. -/
theorem c3_decode_amended_witness :
    ([1, 0, 2, 0] : List Nat).length = 2 * 2 * 1 ∧
    decodeAudioData [1, 0, 2, 0] 24000 2 =
      .ok { numChannels := 2, sampleRate := 24000, length := 1,
            channels := [[1 / 32768], [1 / 32768]] } := by
  refine ⟨by decide, ?_⟩
  rw [c3_decode_amended [1, 0, 2, 0] 24000 2 1 (by decide) (by decide) (by decide)]
  norm_num [toInt16List, int16OfBytes, List.replicate]

/-- C4, counterexample: the byte buffer [1, 0, 0] has length 3, which is not
a multiple of 2 x channelCount = 2, yet the decoder does not fail: the
Int16Array length argument 3 / 2 = 1.5 is truncated by ToIndex, the trailing
byte is dropped, and a 1-frame buffer is produced. -/
theorem c4_counterexample :
    ([1, 0, 0] : List Nat).length % (2 * 1) ≠ 0 ∧
    decodeAudioData [1, 0, 0] 24000 1 =
      .ok { numChannels := 1, sampleRate := 24000, length := 1,
            channels := [[1 / 32768]] } := by
  refine ⟨by decide, ?_⟩
  norm_num [decodeAudioData, toInt16List, int16OfBytes, List.replicate]

/-- C4 (amended): a byte buffer whose length is not a multiple of
2 x channelCount never produces a MalformedAudioError (no such check
exists): the trailing partial frame is discarded, and the decoder succeeds
with floor(floor(length / 2) / channelCount) frames whenever at least one
complete frame remains, failing only with the buffer-creation
NotSupportedError when no complete frame remains. -/
theorem c4_no_error_amended (data : List Nat) (rate cc : Nat) (hcc : cc ≠ 0)
    (hmod : data.length % (2 * cc) ≠ 0) :
    decodeAudioData data rate cc =
      if data.length / 2 / cc = 0 then .error .notSupported
      else .ok { numChannels := cc, sampleRate := rate, length := data.length / 2 / cc,
                 channels := List.replicate cc
                   (((toInt16List data).take (data.length / 2 / cc)).map
                     (fun v => (v : ℚ) / 32768)) } := by
  simp only [decodeAudioData, toInt16List_length]
  by_cases h : data.length / 2 / cc = 0
  · rw [if_pos (Or.inr h), if_pos h]
  · rw [if_neg (by push_neg; exact ⟨hcc, h⟩), if_neg h]

/-- Witness for C4: the amended statement evaluated on the concrete
odd-length input [1, 0, 0] with one channel. -/
theorem c4_no_error_amended_witness :
    decodeAudioData [1, 0, 0] 24000 1 =
      .ok { numChannels := 1, sampleRate := 24000, length := 1,
            channels := [[1 / 32768]] } := by
  rw [c4_no_error_amended [1, 0, 0] 24000 1 (by decide) (by decide)]
  norm_num [toInt16List, int16OfBytes, List.replicate]

/-- C5, counterexample: a zero-length byte buffer does not yield a
zero-frame Sample Buffer; the decode fails, because createBuffer is called
with length 0, which the Web Audio specification requires to throw
NotSupportedError. -/
theorem c5_counterexample :
    decodeAudioData [] 24000 1 = .error .notSupported ∧
    (decodeAudioData [] 24000 1).isOk = false := by
  constructor <;> rfl

/-- C5 (amended): a zero-length byte buffer given to the PCM decoder fails
with the NotSupportedError thrown by zero-frame buffer creation, for every
sample rate and channel count; it never produces a Sample Buffer. -/
theorem c5_empty_input_error (rate cc : Nat) :
    decodeAudioData [] rate cc = .error .notSupported := by
  simp [decodeAudioData, toInt16List]

/-- C6: when pause is called while playing, the controller adds wall-clock
elapsed time times the rate in effect to the buffer-time cursor: playing
from cursor 0 at rate r and pausing after t seconds of wall-clock advance
leaves the cursor exactly at r * t whenever r * t does not exceed the
buffer duration (the model has no scheduling noise, so the tolerance is 0). -/
theorem c6_pause_cursor (s : PlayerState) (r t : ℚ) (hcur : s.pausedTime = 0)
    (ht : 0 ≤ t) (hrt : r * t ≤ s.duration) :
    (pauseAudio (advanceClock t (playAudio (setSpeed r s)))).pausedTime = r * t := by
  have h1 : s.now + t - s.now = t := by ring
  simp only [pauseAudio, advanceClock, playAudio, setSpeed, if_true, hcur, h1, zero_add]
  rw [if_neg (by rw [mul_comm t r]; exact not_lt.mpr hrt)]
  exact mul_comm t r

/-- Witness for C6: scenario C (rate 1.0, 500 ms, cursor 0.5 s) and scenario
D (rate 2.0, 500 ms, cursor 1.0 s) on a 2-second buffer. -/
theorem c6_pause_cursor_witness :
    (pauseAudio (advanceClock (1 / 2) (playAudio (setSpeed 1 (initPlayer 2))))).pausedTime
        = 1 * (1 / 2) ∧
    (pauseAudio (advanceClock (1 / 2) (playAudio (setSpeed 2 (initPlayer 2))))).pausedTime
        = 2 * (1 / 2) :=
  ⟨c6_pause_cursor (initPlayer 2) 1 (1 / 2) rfl (by norm_num) (by norm_num [initPlayer]),
   c6_pause_cursor (initPlayer 2) 2 (1 / 2) rfl (by norm_num) (by norm_num [initPlayer])⟩

/-- Inductive invariant of the controller: the cursor stays within
[0, duration], the anchor never lies in the future, and the speed is
non-negative. -/
def cursorInv (s : PlayerState) : Prop :=
  0 ≤ s.pausedTime ∧ s.pausedTime ≤ s.duration ∧ s.startTime ≤ s.now ∧ 0 ≤ s.speed

lemma stepOp_preserves_cursorInv (s : PlayerState) (op : PlayerOp)
    (hv : validOp op) (h : cursorInv s) : cursorInv (stepOp s op) := by
  obtain ⟨h1, h2, h3, h4⟩ := h
  cases op with
  | play =>
    simp only [stepOp, playAudio, cursorInv]
    exact ⟨h1, h2, le_refl _, h4⟩
  | pause =>
    simp only [stepOp, pauseAudio, cursorInv]
    split
    · have hel : (0 : ℚ) ≤ (s.now - s.startTime) * s.speed :=
        mul_nonneg (by linarith) h4
      by_cases hgt : s.pausedTime + (s.now - s.startTime) * s.speed > s.duration
      · rw [if_pos hgt]
        dsimp only
        exact ⟨le_refl 0, by linarith, h3, h4⟩
      · rw [if_neg hgt]
        dsimp only
        exact ⟨by linarith, not_lt.mp hgt, h3, h4⟩
    · exact ⟨h1, h2, h3, h4⟩
  | stop =>
    simp only [stepOp, stopAudio, cursorInv]
    exact ⟨le_refl 0, by linarith, h3, h4⟩
  | tick =>
    simp only [stepOp, updateProgress, cursorInv]
    split
    · split
      · dsimp only
        exact ⟨h1, h2, h3, h4⟩
      · dsimp only
        exact ⟨le_refl 0, by linarith, h3, h4⟩
    · exact ⟨h1, h2, h3, h4⟩
  | advance t =>
    simp only [validOp] at hv
    simp only [stepOp, advanceClock, cursorInv]
    exact ⟨h1, h2, by linarith, h4⟩
  | rate r =>
    simp only [validOp] at hv
    simp only [stepOp, setSpeed, cursorInv]
    exact ⟨h1, h2, h3, by linarith [hv.1]⟩

lemma foldl_stepOp_cursorInv (ops : List PlayerOp) (s : PlayerState)
    (h : cursorInv s) (hv : ∀ op ∈ ops, validOp op) : cursorInv (ops.foldl stepOp s) := by
  induction ops generalizing s with
  | nil => exact h
  | cons op rest ih =>
    exact ih (stepOp s op)
      (stepOp_preserves_cursorInv s op (hv op (List.mem_cons_self op rest)) h)
      (fun o ho => hv o (List.mem_cons_of_mem op ho))

/-- C7: from the initial stopped state of a buffer of non-negative duration,
every sequence of play / pause / stop / progress-tick operations with
non-negative wall-clock advances and rates in [0.5, 2.0] keeps the
buffer-time cursor within [0, duration]. -/
theorem c7_cursor_invariant (d : ℚ) (hd : 0 ≤ d) (ops : List PlayerOp)
    (hv : ∀ op ∈ ops, validOp op) :
    0 ≤ (runOps d ops).pausedTime ∧
    (runOps d ops).pausedTime ≤ (runOps d ops).duration := by
  have hinv : cursorInv (initPlayer d) := by
    simp only [cursorInv, initPlayer]
    norm_num [hd]
  have h := foldl_stepOp_cursorInv ops (initPlayer d) hinv hv
  exact ⟨h.1, h.2.1⟩

/-- Witness for C7: a concrete play / advance / pause run on a 1-second
buffer. -/
theorem c7_cursor_invariant_witness :
    0 ≤ (runOps 1 [.play, .advance (1 / 2), .pause]).pausedTime ∧
    (runOps 1 [.play, .advance (1 / 2), .pause]).pausedTime ≤
      (runOps 1 [.play, .advance (1 / 2), .pause]).duration :=
  c7_cursor_invariant 1 (by norm_num) [.play, .advance (1 / 2), .pause] (by
    intro op hop
    simp only [List.mem_cons, List.not_mem_nil, or_false] at hop
    rcases hop with rfl | rfl | rfl
    · simp [validOp]
    · simp only [validOp]
      norm_num
    · simp [validOp])

/-- C8: stop is idempotent on the whole session state (state label, cursor
and displayed time included), and stopping the already-stopped initial
session leaves it unchanged: a second stop is a no-op, not an error (the
InvalidStateError of the doubly stopped source node is caught and ignored,
so the embedded operation is total). -/
theorem c8_stop_idempotent :
    (∀ s : PlayerState, stopAudio (stopAudio s) = stopAudio s) ∧
    ∀ d : ℚ, stopAudio (initPlayer d) = initPlayer d :=
  ⟨fun _ => rfl, fun _ => rfl⟩

/-- C9: when the computed buffer position reaches the duration while
playing, the progress tick transitions the session to Stopped (isPlaying
false) and resets both the cursor and the displayed time to 0, with no stop
call involved. -/
theorem c9_natural_end (s : PlayerState) (hp : s.isPlaying = true)
    (hend : s.duration ≤ s.pausedTime + (s.now - s.startTime) * s.speed) :
    (updateProgress s).isPlaying = false ∧ (updateProgress s).pausedTime = 0 ∧
    (updateProgress s).currentTime = 0 := by
  simp only [updateProgress, hp, if_true]
  rw [if_neg (not_lt.mpr hend)]
  exact ⟨rfl, rfl, rfl⟩

/-- Concrete session used to witness natural completion: playing a 1-second
buffer from cursor 0 at rate 1 with the wall clock 1 second past the
anchor. -/
def endedSessionExample : PlayerState :=
  { isPlaying := true, currentTime := 0, pausedTime := 0, startTime := 0,
    now := 1, speed := 1, duration := 1, sourceExists := true }

/-- Witness for C9: the progress tick stops the concrete completed session
and resets its cursor and displayed time. -/
theorem c9_natural_end_witness :
    (updateProgress endedSessionExample).isPlaying = false ∧
    (updateProgress endedSessionExample).pausedTime = 0 ∧
    (updateProgress endedSessionExample).currentTime = 0 :=
  c9_natural_end endedSessionExample rfl (by norm_num [endedSessionExample])

/-- C10: a generation attempt that fails at the synthesis call, the base64
decode or the PCM decode leaves the history list unchanged and the current
audio buffer null (the handler nulls the buffer before the try block and
only installs a buffer and prepends a history entry after all three steps
succeed). -/
theorem c10_failed_generation (synthResult : Except String String)
    (atobBytes : String → Except String (List Nat)) (uuid : String) (nowMs : Nat)
    (st : AppState) (htext : st.text.data.all Char.isWhitespace = false)
    (hfail : generationFails synthResult atobBytes) :
    (handleGenerate synthResult atobBytes uuid nowMs st).history = st.history ∧
    (handleGenerate synthResult atobBytes uuid nowMs st).currentAudioBuffer = none := by
  cases synthResult with
  | error e => simp [handleGenerate, htext]
  | ok base64Audio =>
    simp only [generationFails] at hfail
    cases hb : atobBytes base64Audio with
    | error e => simp [handleGenerate, htext, hb]
    | ok audioBytes =>
      simp only [hb] at hfail
      cases hd : decodeAudioData audioBytes 24000 1 with
      | error e => simp [handleGenerate, htext, hb, hd]
      | ok buffer =>
        simp only [hd] at hfail

/-- Concrete application state used to witness the failed-generation claim:
pending text with an empty history and no buffer. -/
def pendingAppExample : AppState :=
  { text := "hi", voice := "Kore", speed := 1, pitch := 0, isLoading := false,
    error := none, currentAudioBuffer := none, history := [] }

/-- Witness for C10: a failing network call against the concrete pending
state leaves the (empty) history and the null buffer untouched. -/
theorem c10_failed_generation_witness :
    (handleGenerate (.error "network error") (fun _ => .ok []) "id" 0
      pendingAppExample).history = [] ∧
    (handleGenerate (.error "network error") (fun _ => .ok []) "id" 0
      pendingAppExample).currentAudioBuffer = none :=
  c10_failed_generation (.error "network error") (fun _ => .ok []) "id" 0
    pendingAppExample (by decide) trivial

/-! Helper lemmas for the WAV round trip (claim C2). -/

lemma wavHeader_length (b : AudioBuffer) : (wavHeader b).length = 44 := rfl

lemma wavHeader_getD_22 (b : AudioBuffer) : (wavHeader b).getD 22 0 = b.numChannels % 256 := rfl

lemma wavHeader_getD_23 (b : AudioBuffer) :
    (wavHeader b).getD 23 0 = b.numChannels / 256 % 256 := rfl

lemma wavHeader_getD_24 (b : AudioBuffer) : (wavHeader b).getD 24 0 = b.sampleRate % 256 := rfl

lemma wavHeader_getD_25 (b : AudioBuffer) :
    (wavHeader b).getD 25 0 = b.sampleRate / 256 % 256 := rfl

lemma wavHeader_getD_26 (b : AudioBuffer) :
    (wavHeader b).getD 26 0 = b.sampleRate / 65536 % 256 := rfl

lemma wavHeader_getD_27 (b : AudioBuffer) :
    (wavHeader b).getD 27 0 = b.sampleRate / 16777216 % 256 := rfl

lemma length_flatMap_const {α : Type} (n m : Nat) (f : Nat → List α)
    (h : ∀ i, (f i).length = m) : ((List.range n).flatMap f).length = n * m := by
  rw [List.length_flatMap]
  have hrep : (List.range n).map (List.length ∘ f) = List.replicate n m := by
    rw [List.eq_replicate_iff]
    refine ⟨by simp, ?_⟩
    intro x hx
    simp only [List.mem_map, Function.comp] at hx
    obtain ⟨i, _, rfl⟩ := hx
    exact h i
  rw [hrep, List.sum_replicate]
  exact smul_eq_mul ℕ

lemma getD_map_range {α : Type} (m : Nat) (g : Nat → α) (c : Nat) (hc : c < m) (d : α) :
    ((List.range m).map g).getD c d = g c := by
  rw [List.getD_eq_getElem?_getD, List.getElem?_map, List.getElem?_range hc]
  rfl

lemma getD_flatMap_const {α : Type} (n m : Nat) (f : Nat → List α)
    (h : ∀ j, (f j).length = m) (i c : Nat) (hi : i < n) (hc : c < m) (d : α) :
    ((List.range n).flatMap f).getD (i * m + c) d = (f i).getD c d := by
  induction n with
  | zero => omega
  | succ n ih =>
    rw [List.range_succ, List.flatMap_append, List.flatMap_singleton]
    by_cases hin : i < n
    · rw [List.getD_append]
      · exact ih hin
      · rw [length_flatMap_const n m f h]
        calc i * m + c < i * m + m := by omega
          _ = (i + 1) * m := by ring
          _ ≤ n * m := Nat.mul_le_mul_right m (by omega)
    · have hieq : i = n := by omega
      subst hieq
      rw [List.getD_append_right]
      · rw [length_flatMap_const i m f h]
        congr 1
        omega
      · rw [length_flatMap_const i m f h]
        omega

lemma int16_i16le_append (v : Int) (rest : List Nat) (h1 : -32768 ≤ v) (h2 : v < 32768) :
    toInt16List (i16le v ++ rest) = v :: toInt16List rest := by
  simp only [i16le, List.cons_append, List.nil_append, toInt16List]
  congr 1
  simp only [int16OfBytes]
  split <;> omega

lemma toInt16List_flatMap_i16le (L : List Int) (h : ∀ v ∈ L, -32768 ≤ v ∧ v < 32768) :
    toInt16List (L.flatMap i16le) = L := by
  induction L with
  | nil => rfl
  | cons v rest ih =>
    rw [List.flatMap_cons,
      int16_i16le_append v _ (h v (List.mem_cons_self v rest)).1
        (h v (List.mem_cons_self v rest)).2,
      ih (fun w hw => h w (List.mem_cons_of_mem v hw))]

/-- Interleaved quantized 16-bit samples of the data chunk, frame-major, as
the encoder writes them. -/
def wavSamples (b : AudioBuffer) : List Int :=
  (List.range b.length).flatMap (fun pos =>
    (List.range b.numChannels).map (fun c => quantizeSample (b.sampleAt c pos)))

lemma wavData_eq (b : AudioBuffer) : wavData b = (wavSamples b).flatMap i16le := by
  simp only [wavData, wavSamples, List.flatMap_assoc, List.flatMap_map]

lemma wavSamples_length (b : AudioBuffer) :
    (wavSamples b).length = b.length * b.numChannels := by
  apply length_flatMap_const
  intro i
  simp

lemma wavSamples_range (b : AudioBuffer) :
    ∀ v ∈ wavSamples b, -32768 ≤ v ∧ v < 32768 := by
  intro v hv
  simp only [wavSamples, List.mem_flatMap, List.mem_map] at hv
  obtain ⟨pos, hpos, c, hc, rfl⟩ := hv
  rw [quantizeSample_eq_amended]
  exact quantizeRuleAmended_range _

lemma sampleAt_bounded (b : AudioBuffer) (hwf : b.WF)
    (hbound : ∀ ch ∈ b.channels, ∀ x ∈ ch, -1 ≤ x ∧ x ≤ 1)
    (c i : Nat) (hc : c < b.numChannels) (hi : i < b.length) :
    -1 ≤ b.sampleAt c i ∧ b.sampleAt c i ≤ 1 := by
  obtain ⟨hlen, hall⟩ := hwf
  have hc' : c < b.channels.length := by rw [hlen]; exact hc
  have hmemc : b.channels.getD c [] ∈ b.channels := by
    rw [List.getD_eq_getElem _ _ hc']
    exact List.getElem_mem hc'
  have hleni : i < (b.channels.getD c []).length := by
    rw [hall _ hmemc]
    exact hi
  have hmemi : (b.channels.getD c []).getD i 0 ∈ b.channels.getD c [] := by
    rw [List.getD_eq_getElem _ _ hleni]
    exact List.getElem_mem hleni
  exact hbound _ hmemc _ hmemi

lemma wavDecodeSpec_wav (b : AudioBuffer) (hcc1 : 1 ≤ b.numChannels)
    (hcc2 : b.numChannels < 65536) (hrate : b.sampleRate < 4294967296) :
    wavDecodeSpec (audioBufferToWav b) =
      some { numChannels := b.numChannels, sampleRate := b.sampleRate, length := b.length,
             channels := (List.range b.numChannels).map (fun c =>
               (List.range b.length).map (fun i =>
                 ((wavSamples b).getD (i * b.numChannels + c) 0 : ℚ) / 32768)) } := by
  have hlen : ¬ ((wavHeader b ++ wavData b).length < 44) := by
    rw [List.length_append, wavHeader_length]
    omega
  have hdrop : (wavHeader b ++ wavData b).drop 44 = wavData b := by
    have h44 : (44 : Nat) = (wavHeader b).length := (wavHeader_length b).symm
    rw [h44, List.drop_left]
  have hg22 : (wavHeader b ++ wavData b).getD 22 0 = b.numChannels % 256 := by
    rw [List.getD_append _ _ _ 22 (by rw [wavHeader_length]; omega), wavHeader_getD_22]
  have hg23 : (wavHeader b ++ wavData b).getD 23 0 = b.numChannels / 256 % 256 := by
    rw [List.getD_append _ _ _ 23 (by rw [wavHeader_length]; omega), wavHeader_getD_23]
  have hg24 : (wavHeader b ++ wavData b).getD 24 0 = b.sampleRate % 256 := by
    rw [List.getD_append _ _ _ 24 (by rw [wavHeader_length]; omega), wavHeader_getD_24]
  have hg25 : (wavHeader b ++ wavData b).getD 25 0 = b.sampleRate / 256 % 256 := by
    rw [List.getD_append _ _ _ 25 (by rw [wavHeader_length]; omega), wavHeader_getD_25]
  have hg26 : (wavHeader b ++ wavData b).getD 26 0 = b.sampleRate / 65536 % 256 := by
    rw [List.getD_append _ _ _ 26 (by rw [wavHeader_length]; omega), wavHeader_getD_26]
  have hg27 : (wavHeader b ++ wavData b).getD 27 0 = b.sampleRate / 16777216 % 256 := by
    rw [List.getD_append _ _ _ 27 (by rw [wavHeader_length]; omega), wavHeader_getD_27]
  have hnum : (wavHeader b ++ wavData b).getD 22 0 % 256 +
      256 * ((wavHeader b ++ wavData b).getD 23 0 % 256) = b.numChannels := by
    rw [hg22, hg23]
    omega
  have hrateq : (wavHeader b ++ wavData b).getD 24 0 % 256 +
      256 * ((wavHeader b ++ wavData b).getD 25 0 % 256) +
      65536 * ((wavHeader b ++ wavData b).getD 26 0 % 256) +
      16777216 * ((wavHeader b ++ wavData b).getD 27 0 % 256) = b.sampleRate := by
    rw [hg24, hg25, hg26, hg27]
    omega
  have hints : toInt16List ((wavHeader b ++ wavData b).drop 44) = wavSamples b := by
    rw [hdrop, wavData_eq, toInt16List_flatMap_i16le _ (wavSamples_range b)]
  have hfr : (wavSamples b).length / b.numChannels = b.length := by
    rw [wavSamples_length]
    exact Nat.mul_div_cancel _ (by omega)
  simp only [wavDecodeSpec, audioBufferToWav]
  rw [if_neg hlen]
  simp only [hnum, hrateq, hints, hfr]
  rw [if_neg (by omega : ¬ b.numChannels = 0)]

/-- C2 (amended): for every valid Sample Buffer (well-formed, samples in
[-1, 1], at least one channel, channel count below 2^16 and sample rate
below 2^32 so that the header fields are exact), decoding the WAV encoder's
output with the inverse mapping of the PCM decoder (divide each 16-bit
integer by 32768.0, de-interleave channel-minor) reproduces the frame
count, channel count and sample rate exactly, and reproduces every sample
within 2/32768 absolute tolerance (the bound 1/32768 is not achievable
because non-negative samples are scaled by 32767 on encode but by 32768 on
decode). -/
theorem c2_roundtrip_amended (b : AudioBuffer) (hwf : b.WF)
    (hbound : ∀ ch ∈ b.channels, ∀ x ∈ ch, -1 ≤ x ∧ x ≤ 1)
    (hcc1 : 1 ≤ b.numChannels) (hcc2 : b.numChannels < 65536)
    (hrate : b.sampleRate < 4294967296) :
    ∃ b1, wavDecodeSpec (audioBufferToWav b) = some b1 ∧
      b1.numChannels = b.numChannels ∧ b1.sampleRate = b.sampleRate ∧
      b1.length = b.length ∧
      ∀ c < b.numChannels, ∀ i < b.length,
        |b1.sampleAt c i - b.sampleAt c i| ≤ 2 / 32768 := by
  refine ⟨_, wavDecodeSpec_wav b hcc1 hcc2 hrate, rfl, rfl, rfl, ?_⟩
  intro c hc i hi
  have hs : AudioBuffer.sampleAt
      { numChannels := b.numChannels, sampleRate := b.sampleRate, length := b.length,
        channels := (List.range b.numChannels).map (fun ch =>
          (List.range b.length).map (fun j =>
            ((wavSamples b).getD (j * b.numChannels + ch) 0 : ℚ) / 32768)) } c i
      = ((wavSamples b).getD (i * b.numChannels + c) 0 : ℚ) / 32768 := by
    simp only [AudioBuffer.sampleAt]
    rw [getD_map_range b.numChannels _ c hc]
    rw [getD_map_range b.length _ i hi]
  have hq : (wavSamples b).getD (i * b.numChannels + c) 0
      = quantizeSample (b.sampleAt c i) := by
    rw [wavSamples]
    rw [getD_flatMap_const b.length b.numChannels _ (fun j => by simp) i c hi hc 0]
    exact getD_map_range b.numChannels _ c hc 0
  rw [hs, hq, quantizeSample_eq_amended]
  have hb := sampleAt_bounded b hwf hbound c i hc hi
  exact quantize_tolerance _ hb.1 hb.2

/-- Concrete buffer for the C2 witness: one mono frame holding 1/2. -/
def roundTripExample : AudioBuffer :=
  { numChannels := 1, sampleRate := 24000, length := 1, channels := [[1 / 2]] }

/-- Witness for C2: the amended round trip applied to the concrete
one-frame mono buffer holding 1/2. -/
theorem c2_roundtrip_amended_witness :
    ∃ b1, wavDecodeSpec (audioBufferToWav roundTripExample) = some b1 ∧
      b1.numChannels = roundTripExample.numChannels ∧
      b1.sampleRate = roundTripExample.sampleRate ∧
      b1.length = roundTripExample.length ∧
      ∀ c < roundTripExample.numChannels, ∀ i < roundTripExample.length,
        |b1.sampleAt c i - roundTripExample.sampleAt c i| ≤ 2 / 32768 :=
  c2_roundtrip_amended roundTripExample
    (by constructor
        · rfl
        · intro ch hch
          simp only [roundTripExample] at hch
          simp only [List.mem_singleton] at hch
          subst hch
          rfl)
    (by intro ch hch x hx
        simp only [roundTripExample, List.mem_singleton] at hch
        subst hch
        simp only [List.mem_singleton] at hx
        subst hx
        norm_num)
    (by norm_num [roundTripExample])
    (by norm_num [roundTripExample])
    (by norm_num [roundTripExample])

/-- Concrete buffer for the C2 counterexample: one mono frame holding
49153/65536 (a value with 17 significand bits, exactly representable in
Float32). -/
def cxBuffer : AudioBuffer :=
  { numChannels := 1, sampleRate := 24000, length := 1, channels := [[49153 / 65536]] }

/-- Decoded counterpart of cxBuffer: the encoder writes
trunc(49153/65536 * 32767) = 24575 and the inverse mapping divides by
32768. -/
def cxDecoded : AudioBuffer :=
  { numChannels := 1, sampleRate := 24000, length := 1, channels := [[24575 / 32768]] }

/-- C2, counterexample: the valid mono buffer holding 49153/65536 round
trips to 24575/32768, and the error |24575/32768 - 49153/65536| = 3/65536
exceeds the claimed 1/32768 tolerance. -/
theorem c2_counterexample :
    AudioBuffer.WF cxBuffer ∧
    (∀ ch ∈ cxBuffer.channels, ∀ x ∈ ch, -1 ≤ x ∧ x ≤ 1) ∧
    wavDecodeSpec (audioBufferToWav cxBuffer) = some cxDecoded ∧
    cxDecoded.sampleAt 0 0 = 24575 / 32768 ∧
    cxBuffer.sampleAt 0 0 = 49153 / 65536 ∧
    ¬ |cxDecoded.sampleAt 0 0 - cxBuffer.sampleAt 0 0| ≤ 1 / 32768 := by
  have hwf : AudioBuffer.WF cxBuffer := by
    constructor
    · rfl
    · intro ch hch
      simp only [cxBuffer, List.mem_singleton] at hch
      subst hch
      rfl
  have hbound : ∀ ch ∈ cxBuffer.channels, ∀ x ∈ ch, -1 ≤ x ∧ x ≤ 1 := by
    intro ch hch x hx
    simp only [cxBuffer, List.mem_singleton] at hch
    subst hch
    simp only [List.mem_singleton] at hx
    subst hx
    norm_num
  have hsamples : wavSamples cxBuffer = [24575] := by
    simp only [wavSamples, cxBuffer, AudioBuffer.sampleAt]
    norm_num [List.range_succ, quantizeSample, toInt32, truncQ]
  refine ⟨hwf, hbound, ?_, by norm_num [cxDecoded, AudioBuffer.sampleAt],
    by norm_num [cxBuffer, AudioBuffer.sampleAt], ?_⟩
  · rw [wavDecodeSpec_wav cxBuffer (by norm_num [cxBuffer]) (by norm_num [cxBuffer])
      (by norm_num [cxBuffer])]
    simp only [hsamples]
    simp only [cxBuffer, cxDecoded]
    norm_num [List.range_succ]
  · have hdiff : cxDecoded.sampleAt 0 0 - cxBuffer.sampleAt 0 0 = -(3 / 65536) := by
      norm_num [cxBuffer, cxDecoded, AudioBuffer.sampleAt]
    rw [not_le, hdiff, abs_neg, abs_of_pos (by norm_num)]
    norm_num
